import Mathlib

/-!
Shallow embedding of the Walrus-data repository core (scraper validators,
API sanitizer, TTL cache, daily scheduler) together with theorems settling
the frozen claims about it.

Modelling conventions:
- JS numbers are modelled as rationals; integer results of parseInt and
  Math.floor are integer-valued rationals.
- JS objects with possibly-missing or null fields become structures of
  Option fields; null and undefined both collapse to none (the code only
  distinguishes them through truthiness, which treats both as falsy).
- JS Date instants are modelled as integers (milliseconds); a timestamp
  string is abstracted to the instant it denotes, an unparseable string
  to none.  ISO timestamp strings are never empty, so string truthiness
  on them coincides with presence.
- The JS number-to-string rendering (used only to fill display fields)
  is modelled by a concrete rendering function; no claim depends on its
  exact text, only on its determinism and nonemptiness.
-/

/-- Decimal digit characters of a natural number, with explicit fuel so the
definition is structural and kernel-reducible.  Mirrors the digits JS would
print for an integer. -/
def natCharsAux : Nat → Nat → List Char
  | 0, _ => []
  | fuel + 1, n =>
    if n < 10 then [Nat.digitChar n]
    else natCharsAux fuel (n / 10) ++ [Nat.digitChar (n % 10)]

def natChars (n : Nat) : List Char := natCharsAux (n + 1) n

/-- Rendering of a JS integer, as in a template literal. -/
def jsIntToString (i : Int) : String :=
  if i < 0 then "-" ++ String.mk (natChars i.natAbs) else String.mk (natChars i.natAbs)

/-- Rendering of a JS number.  For integers this matches the JS text; the
decimal rendering of non-integer floats is abstracted (numerator, dot,
denominator), which no claim inspects. -/
def jsNumToString (q : Rat) : String :=
  if q.den = 1 then jsIntToString q.num
  else jsIntToString q.num ++ "." ++ String.mk (natChars q.den)

/-- Model of the JS `s.substring(0, n)`. -/
def jsSubstring (s : String) (n : Nat) : String := String.mk (s.data.take n)

/-- Model of `a || b` for a possibly-absent JS string: the default wins on
undefined and on the empty string (the only falsy string). -/
def strOrDefault (o : Option String) (d : String) : String :=
  match o with
  | some s => if s = "" then d else s
  | none => d

/-- Model of `display || value`: fall back to rendering the number. -/
def strOrNum (o : Option String) (v : Rat) : String :=
  match o with
  | some s => if s = "" then jsNumToString v else s
  | none => jsNumToString v

/-- MetricsRecord price sub-object (`storagePrice` / `writePrice`). -/
structure RawPrice where
  value : Option Rat
  unit : Option String
  display : Option String
deriving DecidableEq

/-- MetricsRecord `storageCapacity` sub-object. -/
structure RawCapacity where
  used : Option Rat
  total : Option Rat
  percentage : Option Rat
  percentageDisplay : Option String
  display : Option String
deriving DecidableEq

/-- MetricsRecord `epoch` sub-object. -/
structure RawEpoch where
  number : Option Rat
  display : Option String
deriving DecidableEq

/-- A MetricsRecord as it flows through the pipeline: extractor output,
sanitizer input and output, validator subject, cache value. -/
structure RawData where
  storagePrice : Option RawPrice
  writePrice : Option RawPrice
  storageCapacity : Option RawCapacity
  epoch : Option RawEpoch
  dataSource : Option String
  timestamp : Option Int
deriving DecidableEq

/-- JS truthiness of a possibly-absent number: present and nonzero. -/
def jsTruthyNum (o : Option Rat) : Bool :=
  match o with
  | some v => v != 0
  | none => false

/-- Optional chaining `d.storagePrice?.value`. -/
def spValue (d : RawData) : Option Rat := d.storagePrice.bind RawPrice.value

/-- Optional chaining `d.writePrice?.value`. -/
def wpValue (d : RawData) : Option Rat := d.writePrice.bind RawPrice.value

/-- Optional chaining `d.storageCapacity?.percentage`. -/
def capPercentage (d : RawData) : Option Rat := d.storageCapacity.bind RawCapacity.percentage

/-- Optional chaining `d.epoch?.number`. -/
def epNumber (d : RawData) : Option Rat := d.epoch.bind RawEpoch.number

/-- The loose validator field check `data.storagePrice?.value && data.storagePrice?.value > 0`. -/
def truthyPos (o : Option Rat) : Bool :=
  match o with
  | some v => v != 0 && decide (0 < v)
  | none => false

/-- `hasStorageCapacity` of the loose validator: a used/total pair both
truthy, or a truthy positive percentage. -/
def hasStorageCapacity (d : RawData) : Bool :=
  match d.storageCapacity with
  | some c => (jsTruthyNum c.used && jsTruthyNum c.total) || truthyPos c.percentage
  | none => false

/-- The four loose field checks, in source order. -/
def validFields (d : RawData) : List Bool :=
  [truthyPos (spValue d), truthyPos (wpValue d), hasStorageCapacity d, truthyPos (epNumber d)]

/-- Loose validator `validateData` of walrusScraper.js (lines 328-344):
count the four field checks, threshold 2 for realtime provenance, else 3. -/
def validateData (d : RawData) : Bool :=
  let count := (validFields d).count true
  if d.dataSource == some "realtime" then decide (2 ≤ count) else decide (3 ≤ count)

/-- Comparison chain `o >= lo && o <= hi` on an optionally-present number;
comparisons against undefined are false in JS. -/
def inRange (o : Option Rat) (lo hi : Rat) : Bool :=
  match o with
  | some v => decide (lo ≤ v) && decide (v ≤ hi)
  | none => false

/-- Strict validator `validateDataStrict` of walrusScraper.js (lines 347-357):
all four fields present and inside fixed numeric ranges. -/
def validateDataStrict (d : RawData) : Bool :=
  inRange (spValue d) 1000 100000 &&
  inRange (wpValue d) 1000 100000 &&
  inRange (capPercentage d) 0 100 &&
  inRange (epNumber d) 1 10000

/-- Rounding of `parseFloat(p.toFixed(2))`: two-decimal rounding, half up,
matching the JS behaviour on the nonnegative values it is applied to. -/
def roundTo2 (p : Rat) : Rat := ((round (100 * p) : Int) : Rat) / 100

/-- Sanitizer branch for a price object (api.js lines 22-40): keep only a
present numeric value with `0 < v < 1000000`, flooring it; default and
truncate the string fields. -/
def sanitizePrice (p : Option RawPrice) (defaultUnit : String) : Option RawPrice :=
  match p with
  | none => none
  | some pr =>
    match pr.value with
    | none => none
    | some v =>
      if v ≠ 0 ∧ 0 < v ∧ v < 1000000 then
        some ⟨some ((⌊v⌋ : Int) : Rat),
              some (jsSubstring (strOrDefault pr.unit defaultUnit) 50),
              some (jsSubstring (strOrNum pr.display v) 20)⟩
      else none

/-- Capacity subfield clause for `used` and `total` (api.js lines 52-58):
a present nonnegative number is floored, anything else is dropped. -/
def sanitizeNonneg (o : Option Rat) : Option Rat :=
  match o with
  | some u => if 0 ≤ u then some ((⌊u⌋ : Int) : Rat) else none
  | none => none

/-- Capacity percentage clause (api.js lines 46-48). -/
def sanitizePct (o : Option Rat) : Option Rat :=
  match o with
  | some p => if 0 ≤ p ∧ p ≤ 100 then some (roundTo2 p) else none
  | none => none

/-- Capacity percentageDisplay clause (api.js line 49), rendered from the
rounded percentage. -/
def sanitizePctDisplay (o : Option Rat) : Option String :=
  match o with
  | some p => if 0 ≤ p ∧ p ≤ 100 then some (jsNumToString (roundTo2 p) ++ "%") else none
  | none => none

/-- Capacity display clause (api.js lines 60-62): a truthy string is
truncated, anything else is dropped. -/
def sanitizeDisplay (o : Option String) (n : Nat) : Option String :=
  match o with
  | some s => if s = "" then none else some (jsSubstring s n)
  | none => none

/-- Sanitizer branch for the capacity object (api.js lines 42-63): each
subfield is re-checked independently; failing subfields are dropped. -/
def sanitizeCapacity (c : Option RawCapacity) : Option RawCapacity :=
  match c with
  | none => none
  | some cap =>
    some ⟨sanitizeNonneg cap.used, sanitizeNonneg cap.total, sanitizePct cap.percentage,
          sanitizePctDisplay cap.percentage, sanitizeDisplay cap.display 100⟩

/-- Sanitizer branch for the epoch object (api.js lines 65-72). -/
def sanitizeEpoch (e : Option RawEpoch) : Option RawEpoch :=
  match e with
  | none => none
  | some ep =>
    match ep.number with
    | none => none
    | some n =>
      if n ≠ 0 ∧ 0 < n ∧ n < 100000 then
        some ⟨some ((⌊n⌋ : Int) : Rat), some ("Epoch " ++ jsIntToString ⌊n⌋)⟩
      else none

/-- Sanitizer branch for the provenance tag (api.js lines 74-77): kept only
when it is one of the three recognized values, else normalized. -/
def sanitizeSource (o : Option String) : String :=
  match o with
  | some s => if s = "realtime" ∨ s = "fallback" ∨ s = "cached" then s else "unknown"
  | none => "unknown"

/-- Sanitizer branch for the timestamp (api.js lines 79-82): keep a parseable
nonzero instant, else substitute the current instant.  Instant zero is falsy
in JS (`new Date(x).getTime()` is the number 0) and is replaced. -/
def sanitizeTimestamp (o : Option Int) (now : Int) : Int :=
  match o with
  | some t => if t ≠ 0 then t else now
  | none => now

/-- The Sanitizer `validateAndSanitizeData` of api.js (lines 7-85), with the
current instant passed explicitly.  Non-object input (none) is rejected. -/
def validateAndSanitizeData (data : Option RawData) (now : Int) : Option RawData :=
  match data with
  | none => none
  | some d =>
    some ⟨sanitizePrice d.storagePrice "FROST/MiB/EPOCH",
          sanitizePrice d.writePrice "FROST/MiB",
          sanitizeCapacity d.storageCapacity,
          sanitizeEpoch d.epoch,
          some (sanitizeSource d.dataSource),
          some (sanitizeTimestamp d.timestamp now)⟩

/-- The state of the in-page extraction after strategies 1-2 have run
(walrusScraper.js lines 164-298): whatever each strategy resolved, per field.
The DOM-dependent pattern matching itself is opaque to the embedding; the
claims about the extractor concern the initialization (lines 137-145) and
the final repair rule (lines 300-315), which are modelled exactly. -/
structure ExtractOutcome where
  storagePrice : Option RawPrice
  writePrice : Option RawPrice
  storageCapacity : Option RawCapacity
  epoch : Option RawEpoch
deriving DecidableEq

/-- Documented fallback storage price constant (walrusScraper.js lines 305-309). -/
def fallbackStoragePrice : RawPrice := ⟨some 11000, some "FROST/MiB/EPOCH", some "11,000"⟩

/-- Documented fallback write price constant (walrusScraper.js lines 310-314). -/
def fallbackWritePrice : RawPrice := ⟨some 20000, some "FROST/MiB", some "20,000"⟩

/-- Final repair rule of the extractor (walrusScraper.js lines 300-315):
capacity found but neither price found means substitute the documented
constants and mark the record as fallback. -/
def applyPriceFallback (d : RawData) : RawData :=
  if d.storageCapacity.isSome ∧ d.storagePrice = none ∧ d.writePrice = none then
    { d with dataSource := some "fallback",
             storagePrice := some fallbackStoragePrice,
             writePrice := some fallbackWritePrice }
  else d

/-- The record returned by `page.evaluate` (walrusScraper.js lines 137-317):
fields initialized null with dataSource realtime (lines 138-145), filled by
strategies 1-2, then subjected to the final repair rule. -/
def extractWalrusData (o : ExtractOutcome) (now : Int) : RawData :=
  applyPriceFallback ⟨o.storagePrice, o.writePrice, o.storageCapacity, o.epoch, some "realtime", some now⟩

/-- One cache entry (cache.js lines 33-39). -/
structure CacheEntry (V : Type) where
  value : V
  expiresAt : Nat
  size : Nat
  accessCount : Nat
  lastAccess : Nat
deriving DecidableEq

/-- The two JS Maps of the cache, as association lists in insertion order
(JS Map iteration order). -/
structure CacheState (V : Type) where
  cache : List (String × CacheEntry V)
  timestamps : List (String × Nat)
deriving DecidableEq

/-- JS `Map.get`. -/
def mapLookup (m : List (String × α)) (k : String) : Option α :=
  match m with
  | [] => none
  | (k1, v1) :: rest => if k1 = k then some v1 else mapLookup rest k

/-- JS `Map.set`: replace in place when the key exists, else append. -/
def mapSet (m : List (String × α)) (k : String) (v : α) : List (String × α) :=
  if m.any (fun p => p.1 = k) then
    m.map (fun p => if p.1 = k then (k, v) else p)
  else m ++ [(k, v)]

/-- JS `Map.delete`. -/
def mapDelete (m : List (String × α)) (k : String) : List (String × α) :=
  m.filter (fun p => p.1 != k)

/-- Stable insertion of one element into a sorted list: the new element goes
before the first element not strictly below it. -/
def insertLt (lt : α → α → Bool) (x : α) : List α → List α
  | [] => [x]
  | y :: ys => if lt y x then y :: insertLt lt x ys else x :: y :: ys

/-- Stable ascending sort, matching the stable JS `Array.prototype.sort`
with a numeric comparator. -/
def sortLt (lt : α → α → Bool) : List α → List α
  | [] => []
  | x :: xs => insertLt lt x (sortLt lt xs)

namespace Cache

/-- Count cap `this.maxSize` (cache.js line 7). -/
def maxSize : Nat := 50

/-- Memory budget `this.maxMemoryUsage` = 100 MB (cache.js line 8). -/
def maxMemoryUsage : Nat := 104857600

variable {V : Type}

/-- `estimateMemoryUsage` (cache.js lines 105-108): serialized length times
two, with the JSON serialization passed in as a capability. -/
def estimateMemoryUsage (stringify : V → String) (v : V) : Nat :=
  (stringify v).length * 2

/-- `getCurrentMemoryUsage` (cache.js lines 110-116). -/
def getCurrentMemoryUsage (st : CacheState V) : Nat :=
  st.cache.foldl (fun acc p => acc + p.2.size) 0

/-- `delete` (cache.js lines 71-75): removes the entry and its timestamp. -/
def del (st : CacheState V) (key : String) : CacheState V :=
  ⟨mapDelete st.cache key, mapDelete st.timestamps key⟩

/-- `clear` (cache.js lines 78-82). -/
def clear (_st : CacheState V) : CacheState V := ⟨[], []⟩

/-- `evictOldestEntries` (cache.js lines 118-128): stable-sort entries by
ascending lastAccess and delete the first `count`. -/
def evictOldestEntries (st : CacheState V) (count : Nat) : CacheState V :=
  let entries := sortLt (fun a b => a.2.lastAccess < b.2.lastAccess) st.cache
  ((entries.take count).map Prod.fst).foldl (fun s k => del s k) st

/-- The eviction loop of `evictByMemoryPressure` (cache.js lines 139-144):
walk the sorted snapshot, stopping once the freed memory reaches the target. -/
def evictLoop : List (String × CacheEntry V) → CacheState V → Rat → Rat → CacheState V
  | [], st, _, _ => st
  | (k, it) :: rest, st, freed, target =>
    if target ≤ freed then st
    else evictLoop rest (del st k) (freed + (it.size : Rat)) target

/-- `evictByMemoryPressure` (cache.js lines 130-147): free 30 percent of the
current aggregate size, least-accessed entries first.  The float literal 0.3
is abstracted to the rational 3/10; only comparisons against it matter. -/
def evictByMemoryPressure (st : CacheState V) : CacheState V :=
  let currentMemory := getCurrentMemoryUsage st
  let targetReduction := (currentMemory : Rat) * (3 / 10)
  evictLoop (sortLt (fun a b => a.2.accessCount < b.2.accessCount) st.cache) st 0 targetReduction

/-- `set` (cache.js lines 16-44): count-cap eviction, then memory-pressure
eviction, then unconditional insertion with expiry `now + ttl * 1000`. -/
def set (stringify : V → String) (st : CacheState V) (key : String) (value : V)
    (ttlSeconds : Nat) (now : Nat) : CacheState V :=
  let st1 := if maxSize ≤ st.cache.length then evictOldestEntries st 1 else st
  let estimatedSize := estimateMemoryUsage stringify value
  let currentMemory := getCurrentMemoryUsage st1
  let st2 := if maxMemoryUsage < currentMemory + estimatedSize then evictByMemoryPressure st1 else st1
  let expiresAt := now + ttlSeconds * 1000
  ⟨mapSet st2.cache key ⟨value, expiresAt, estimatedSize, 0, now⟩,
   mapSet st2.timestamps key now⟩

/-- `get` (cache.js lines 47-68): absent gives null; expired (now strictly
past expiresAt) deletes and gives null; a live hit bumps the access stats. -/
def get (st : CacheState V) (key : String) (now : Nat) : Option V × CacheState V :=
  match mapLookup st.cache key with
  | none => (none, st)
  | some item =>
    if item.expiresAt < now then (none, del st key)
    else (some item.value,
      ⟨mapSet st.cache key ⟨item.value, item.expiresAt, item.size, item.accessCount + 1, now⟩,
       st.timestamps⟩)

/-- `has` (cache.js lines 99-102): present and not expired, without mutation. -/
def has (st : CacheState V) (key : String) (now : Nat) : Bool :=
  match mapLookup st.cache key with
  | some item => decide (now ≤ item.expiresAt)
  | none => false

/-- `getTimestamp` (cache.js lines 85-87): reads the timestamps map only,
never the entry expiry. -/
def getTimestamp (st : CacheState V) (key : String) : Option Nat :=
  mapLookup st.timestamps key

end Cache

/-- The empty cache, as constructed at process start (cache.js lines 3-5). -/
def emptyCache (V : Type) : CacheState V := ⟨[], []⟩

/-- The `cacheStatus` field of the GET /last-update response (api.js lines
164-175): derived from `cache.getTimestamp` alone.  The stored ISO string is
never empty, so its JS truthiness is exactly presence. -/
def lastUpdateCacheStatus (st : CacheState V) : String :=
  match Cache.getTimestamp st "walrus-data" with
  | some _ => "active"
  | none => "empty"

/-- Serialization of an optional number, for the JSON size estimate. -/
def stringifyOptNum (o : Option Rat) : String :=
  match o with
  | none => "null"
  | some q => jsNumToString q

/-- Serialization of an optional string, for the JSON size estimate. -/
def stringifyOptStr (o : Option String) : String :=
  match o with
  | none => "null"
  | some s => "\"" ++ s ++ "\""

/-- Serialization of an optional price object. -/
def stringifyPrice (o : Option RawPrice) : String :=
  match o with
  | none => "null"
  | some p => "(" ++ stringifyOptNum p.value ++ "," ++ stringifyOptStr p.unit ++ ","
      ++ stringifyOptStr p.display ++ ")"

/-- Serialization of an optional capacity object. -/
def stringifyCapacity (o : Option RawCapacity) : String :=
  match o with
  | none => "null"
  | some c => "(" ++ stringifyOptNum c.used ++ "," ++ stringifyOptNum c.total ++ ","
      ++ stringifyOptNum c.percentage ++ "," ++ stringifyOptStr c.percentageDisplay ++ ","
      ++ stringifyOptStr c.display ++ ")"

/-- Serialization of an optional epoch object. -/
def stringifyEpoch (o : Option RawEpoch) : String :=
  match o with
  | none => "null"
  | some e => "(" ++ stringifyOptNum e.number ++ "," ++ stringifyOptStr e.display ++ ")"

/-- Concrete stand-in for `JSON.stringify` on a MetricsRecord, used only to
produce a size estimate; the exact JSON text is abstracted. -/
def stringifyRaw (d : RawData) : String :=
  "(" ++ stringifyPrice d.storagePrice ++ "," ++ stringifyPrice d.writePrice ++ ","
    ++ stringifyCapacity d.storageCapacity ++ "," ++ stringifyEpoch d.epoch ++ ","
    ++ stringifyOptStr d.dataSource ++ ","
    ++ (match d.timestamp with | none => "null" | some t => jsIntToString t) ++ ")"

/-- The per-cycle scrape loop `scrapeWalrusData` (walrusScraper.js lines
55-68) over the per-URL fetch outcomes, in priority order: none is a failed
or empty fetch; the first fetched record passing the loose validator wins.
Also returns how many URLs were attempted. -/
def scrapeWalrusData : List (Option RawData) → Option RawData × Nat
  | [] => (none, 0)
  | f :: rest =>
    match f with
    | some d =>
      if validateData d then (some d, 1)
      else
        let r := scrapeWalrusData rest
        (r.1, r.2 + 1)
    | none =>
      let r := scrapeWalrusData rest
      (r.1, r.2 + 1)

/-- Scheduler fields of WalrusScheduler (scheduler.js lines 6-10). -/
structure SchedulerState where
  isRunning : Bool
  lastRun : Option Nat
  nextRun : Option Nat
deriving DecidableEq

/-- `updateNextRunTime` (scheduler.js lines 109-115): the next 00:00 UTC
instant strictly after now, in milliseconds since the epoch. -/
def nextMidnightAfter (now : Nat) : Nat := (now / 86400000 + 1) * 86400000

/-- Result of one trigger of the refresh cycle: final scheduler state, final
cache state, and the number of page fetches performed. -/
structure ScrapeCycleResult where
  sched : SchedulerState
  cache : CacheState RawData
  attempts : Nat
deriving DecidableEq

/-- `performDailyScrape` (scheduler.js lines 57-90): single-flight guard,
delete of the tracked key, scrape, cache of a truthy result for 86400
seconds, and a cleanup step that clears isRunning and recomputes nextRun.
The transient isRunning=true phase is internal to the sequential cycle. -/
def performDailyScrape (sched : SchedulerState) (st : CacheState RawData)
    (fetches : List (Option RawData)) (now : Nat) : ScrapeCycleResult :=
  if sched.isRunning then ⟨sched, st, 0⟩
  else
    let lastRun := some now
    let st1 := Cache.del st "walrus-data"
    let res := scrapeWalrusData fetches
    let st2 :=
      match res.1 with
      | some freshData => Cache.set stringifyRaw st1 "walrus-data" freshData 86400 now
      | none => st1
    ⟨⟨false, lastRun, some (nextMidnightAfter now)⟩, st2, res.2⟩

/-- Guard for the amended idempotence claim: an accepted positive price or
epoch value is at least 1 (so that Math.floor cannot collapse it to the
falsy 0). -/
def priceValueGe1 (p : Option RawPrice) : Bool :=
  match p with
  | some pr =>
    match pr.value with
    | some v => decide (0 < v → 1 ≤ v)
    | none => true
  | none => true

/-- Guard for the amended idempotence claim, epoch variant. -/
def epochValueGe1 (e : Option RawEpoch) : Bool :=
  match e with
  | some ep =>
    match ep.number with
    | some n => decide (0 < n → 1 ≤ n)
    | none => true
  | none => true

/-- A scraped record with realtime provenance and exactly the two loose
fields storagePrice and epoch: passes the loose validator (2 of 4 at the
realtime threshold) but fails the strict one (no writePrice, no capacity). -/
def looseOnlyRecord : RawData :=
  ⟨some ⟨some 11000, some "FROST/MiB/EPOCH", some "11,000"⟩, none, none,
   some ⟨some 150, some "Epoch 150"⟩, some "realtime", some 0⟩

/-- The scheduler singleton as constructed (scheduler.js lines 6-10). -/
def initialScheduler : SchedulerState := ⟨false, none, none⟩

/-- JSON serialization of an escape-free string value, for the cache
instantiated at value type String. -/
def jsonOfString (s : String) : String := "\"" ++ s ++ "\""

/-- A string value whose JSON size estimate, 2 * (length + 2) = 104857602
bytes, exceeds the 100 MB memory budget on its own. -/
def oversizedValue : String := String.mk (List.replicate 52428799 (Char.ofNat 97))

/-- The rational one half, built explicitly so that kernel reduction never
needs the gcd normalization of division. -/
def halfRat : Rat := ⟨1, 2, by norm_num, Nat.coprime_one_left 2⟩

/-- Sanitizer input whose storagePrice value 1/2 is accepted (positive,
below a million) but floors to the falsy 0. -/
def rawHalfPrice : RawData := ⟨some ⟨some halfRat, none, none⟩, none, none, none, none, none⟩

/-- Sanitizer input carrying the provenance value estimated. -/
def rawEstimated : RawData := ⟨none, none, none, none, some "estimated", none⟩

/-- Sanitizer input whose storagePrice value 500 is below the documented
1000 floor yet accepted by the code. -/
def rawPrice500 : RawData := ⟨some ⟨some 500, none, none⟩, none, none, none, none, none⟩

/-! Helper lemmas about the string, map and sorting primitives. -/

theorem natCharsAux_ne_nil (fuel n : Nat) : natCharsAux (fuel + 1) n ≠ [] := by
  unfold natCharsAux
  split <;> simp

theorem natChars_ne_nil (n : Nat) : natChars n ≠ [] := natCharsAux_ne_nil n n

theorem string_ne_empty_of_data (s : String) (h : s.data ≠ []) : s ≠ "" := by
  intro hc
  apply h
  rw [hc]

theorem mk_ne_empty_of_ne_nil (l : List Char) (h : l ≠ []) : String.mk l ≠ "" :=
  string_ne_empty_of_data _ h

theorem jsIntToString_ne_empty (i : Int) : jsIntToString i ≠ "" := by
  unfold jsIntToString
  split
  · apply string_ne_empty_of_data
    rw [String.data_append]
    simp
  · exact mk_ne_empty_of_ne_nil _ (natChars_ne_nil _)

theorem jsNumToString_ne_empty (q : Rat) : jsNumToString q ≠ "" := by
  unfold jsNumToString
  split
  · exact jsIntToString_ne_empty _
  · apply string_ne_empty_of_data
    rw [String.data_append, String.data_append]
    simp [natChars_ne_nil]

theorem data_take_ne_nil (l : List α) (n : Nat) (h : l ≠ []) (hn : n ≠ 0) : l.take n ≠ [] := by
  cases l with
  | nil => exact absurd rfl h
  | cons a t =>
    cases n with
    | zero => exact absurd rfl hn
    | succ m => simp

theorem jsSubstring_ne_empty (s : String) (n : Nat) (h : s ≠ "") (hn : n ≠ 0) :
    jsSubstring s n ≠ "" := by
  apply mk_ne_empty_of_ne_nil
  apply data_take_ne_nil _ _ _ hn
  intro hc
  apply h
  cases s with
  | mk l => cases hc; rfl

theorem jsSubstring_idem (s : String) (n : Nat) :
    jsSubstring (jsSubstring s n) n = jsSubstring s n := by
  unfold jsSubstring
  simp [List.take_take]

theorem mapLookup_mapSet_self (m : List (String × α)) (k : String) (v : α) :
    mapLookup (mapSet m k v) k = some v := by
  unfold mapSet
  split
  · rename_i hany
    induction m with
    | nil => simp at hany
    | cons p rest ih =>
      rw [List.map_cons]
      by_cases hp : p.1 = k
      · rw [if_pos hp]
        rw [mapLookup]
        rw [if_pos rfl]
      · rw [if_neg hp]
        rw [mapLookup]
        rw [if_neg hp]
        apply ih
        simp only [List.any_cons, Bool.or_eq_true, decide_eq_true_eq] at hany
        rcases hany with h1 | h2
        · exact absurd h1 hp
        · simpa using h2
  · rename_i hany
    induction m with
    | nil => rw [List.nil_append, mapLookup, if_pos rfl]
    | cons p rest ih =>
      rw [List.cons_append, mapLookup]
      have hp : ¬ p.1 = k := by
        intro hc
        apply hany
        simp [List.any_cons, hc]
      rw [if_neg hp]
      apply ih
      intro hc
      exact hany (by simp only [List.any_cons]; rw [Bool.or_eq_true]; exact Or.inr hc)

theorem mapLookup_mapDelete_self (m : List (String × α)) (k : String) :
    mapLookup (mapDelete m k) k = none := by
  induction m with
  | nil => rfl
  | cons p rest ih =>
    unfold mapDelete at ih ⊢
    rw [List.filter_cons]
    split
    · rename_i hkeep
      rw [mapLookup]
      have hne : ¬ p.1 = k := by simpa using hkeep
      rw [if_neg hne]
      exact ih
    · exact ih

theorem length_mapSet_le (m : List (String × α)) (k : String) (v : α) :
    (mapSet m k v).length ≤ m.length + 1 := by
  unfold mapSet
  split
  · simp
  · simp

theorem length_mapDelete_le (m : List (String × α)) (k : String) :
    (mapDelete m k).length ≤ m.length :=
  List.length_filter_le _ m

theorem length_mapDelete_lt (m : List (String × α)) (k : String) (p : String × α)
    (hp : p ∈ m) (hk : p.1 = k) : (mapDelete m k).length < m.length := by
  induction m with
  | nil => simp at hp
  | cons q rest ih =>
    unfold mapDelete at ih ⊢
    rw [List.filter_cons]
    rcases List.mem_cons.mp hp with hq | hrest
    · rw [if_neg (by subst hq; simp [hk])]
      simp only [List.length_cons]
      exact Nat.lt_succ_of_le (length_mapDelete_le rest k)
    · split
      · simp only [List.length_cons]
        exact Nat.succ_lt_succ (ih hrest)
      · exact Nat.lt_succ_of_lt (ih hrest)

theorem mem_insertLt (lt : α → α → Bool) (x a : α) (l : List α) :
    a ∈ insertLt lt x l ↔ a = x ∨ a ∈ l := by
  induction l with
  | nil => simp [insertLt]
  | cons y ys ih =>
    unfold insertLt
    split
    · rw [List.mem_cons, ih, List.mem_cons]
      tauto
    · rw [List.mem_cons, List.mem_cons]

theorem mem_sortLt (lt : α → α → Bool) (a : α) (l : List α) :
    a ∈ sortLt lt l ↔ a ∈ l := by
  induction l with
  | nil => simp [sortLt]
  | cons y ys ih =>
    unfold sortLt
    rw [mem_insertLt, ih, List.mem_cons]

theorem length_insertLt (lt : α → α → Bool) (x : α) (l : List α) :
    (insertLt lt x l).length = l.length + 1 := by
  induction l with
  | nil => rfl
  | cons y ys ih =>
    unfold insertLt
    split
    · simp [ih]
    · simp

theorem length_sortLt (lt : α → α → Bool) (l : List α) :
    (sortLt lt l).length = l.length := by
  induction l with
  | nil => rfl
  | cons y ys ih =>
    unfold sortLt
    rw [length_insertLt, ih, List.length_cons]

theorem sortLt_ne_nil (lt : α → α → Bool) (l : List α) (h : l ≠ []) : sortLt lt l ≠ [] := by
  intro hc
  apply h
  have hlen := length_sortLt lt l
  rw [hc] at hlen
  exact List.length_eq_zero.mp hlen.symm

/-! Lemmas about the cache eviction routines. -/

theorem length_del_le {V : Type} (st : CacheState V) (k : String) :
    (Cache.del st k).cache.length ≤ st.cache.length :=
  length_mapDelete_le st.cache k

theorem length_evictLoop_le {V : Type} (entries : List (String × CacheEntry V))
    (st : CacheState V) (freed target : Rat) :
    (Cache.evictLoop entries st freed target).cache.length ≤ st.cache.length := by
  induction entries generalizing st freed with
  | nil => exact Nat.le_refl _
  | cons e rest ih =>
    unfold Cache.evictLoop
    split
    · exact Nat.le_refl _
    · exact Nat.le_trans (ih _ _) (length_del_le st e.1)

theorem length_evictByMemoryPressure_le {V : Type} (st : CacheState V) :
    (Cache.evictByMemoryPressure st).cache.length ≤ st.cache.length := by
  unfold Cache.evictByMemoryPressure
  exact length_evictLoop_le _ _ _ _

theorem length_evictOldest_one {V : Type} (st : CacheState V) (h : st.cache ≠ []) :
    (Cache.evictOldestEntries st 1).cache.length + 1 ≤ st.cache.length := by
  unfold Cache.evictOldestEntries
  set lt := fun (a b : String × CacheEntry V) => decide (a.2.lastAccess < b.2.lastAccess) with hlt
  have hne : sortLt lt st.cache ≠ [] := sortLt_ne_nil lt st.cache h
  obtain ⟨e0, rest, hsort⟩ := List.exists_cons_of_ne_nil hne
  rw [hsort]
  simp only [List.take_succ_cons, List.take_zero, List.map_cons, List.map_nil,
    List.foldl_cons, List.foldl_nil]
  have hmem : e0 ∈ st.cache := by
    rw [← mem_sortLt lt e0 st.cache, hsort]
    exact List.mem_cons_self e0 rest
  have hd : (Cache.del st e0.1).cache.length < st.cache.length :=
    length_mapDelete_lt st.cache e0.1 e0 hmem rfl
  omega

/-- The entry stored for a key by `Cache.set` is looked up unchanged. -/
theorem cache_set_lookup {V : Type} (stringify : V → String) (st : CacheState V)
    (k : String) (v : V) (ttl now : Nat) :
    mapLookup (Cache.set stringify st k v ttl now).cache k =
      some ⟨v, now + ttl * 1000, Cache.estimateMemoryUsage stringify v, 0, now⟩ := by
  unfold Cache.set
  exact mapLookup_mapSet_self _ _ _

/-- Claim C2 (amended): immediately after any `set` from a state within the
count cap, the number of live entries is still at most the count cap of 50.
The memory-budget half of the original claim fails (see the counterexample):
memory-pressure eviction frees only 30 percent of the current usage and the
new entry is inserted regardless of its size. -/
theorem claim_C2_amended {V : Type} (stringify : V → String) (st : CacheState V)
    (k : String) (v : V) (ttl now : Nat) (h : st.cache.length ≤ Cache.maxSize) :
    (Cache.set stringify st k v ttl now).cache.length ≤ Cache.maxSize := by
  unfold Cache.set
  dsimp only
  set st1 := if Cache.maxSize ≤ st.cache.length then Cache.evictOldestEntries st 1 else st with hst1
  have h1 : st1.cache.length ≤ Cache.maxSize - 1 := by
    rw [hst1]
    split
    · rename_i hc
      have hne : st.cache ≠ [] := by
        intro hnil
        rw [hnil] at hc
        simp [Cache.maxSize] at hc
      have := length_evictOldest_one st hne
      simp only [Cache.maxSize] at *
      omega
    · rename_i hc
      simp only [Cache.maxSize] at *
      omega
  set st2 := if Cache.maxMemoryUsage <
      Cache.getCurrentMemoryUsage st1 + Cache.estimateMemoryUsage stringify v then
      Cache.evictByMemoryPressure st1 else st1 with hst2
  have h2 : st2.cache.length ≤ Cache.maxSize - 1 := by
    rw [hst2]
    split
    · exact Nat.le_trans (length_evictByMemoryPressure_le st1) h1
    · exact h1
  have h3 := length_mapSet_le st2.cache k
    (⟨v, now + ttl * 1000, Cache.estimateMemoryUsage stringify v, 0, now⟩ : CacheEntry V)
  simp only [Cache.maxSize] at *
  omega

/-- Witness for claim C2 (amended) at a concrete set on the empty cache. -/
theorem claim_C2_witness :
    (Cache.set jsonOfString (emptyCache String) "walrus-data" "v" 60 0).cache.length ≤
      Cache.maxSize :=
  claim_C2_amended jsonOfString (emptyCache String) "walrus-data" "v" 60 0 (by decide)

/-- Counterexample to claim C2 as stated: a single set of an oversized value
into the empty cache leaves the aggregate estimated size at 104857602 bytes,
strictly above the 100 MB budget, immediately after `set` returns. -/
theorem claim_C2_counterexample :
    Cache.maxMemoryUsage <
      Cache.getCurrentMemoryUsage
        (Cache.set jsonOfString (emptyCache String) "walrus-data" oversizedValue 86400 0) := by
  have hlen : oversizedValue.length = 52428799 := by
    show (List.replicate 52428799 (Char.ofNat 97)).length = 52428799
    exact List.length_replicate _ _
  have hq : ("\"" : String).length = 1 := rfl
  have hjlen : (jsonOfString oversizedValue).length = 52428801 := by
    show ("\"" ++ oversizedValue ++ "\"").length = 52428801
    rw [String.length_append, String.length_append, hlen, hq]
  have hgen : ∀ s : String,
      Cache.estimateMemoryUsage jsonOfString s = (jsonOfString s).length * 2 := fun s => rfl
  have hest : Cache.estimateMemoryUsage jsonOfString oversizedValue = 104857602 := by
    rw [hgen oversizedValue, hjlen]
  have hset : (Cache.set jsonOfString (emptyCache String) "walrus-data" oversizedValue 86400 0).cache =
      [("walrus-data", ⟨oversizedValue, 86400000, 104857602, 0, 0⟩)] := by
    unfold Cache.set
    rw [hest]
    norm_num [emptyCache, Cache.maxSize, Cache.maxMemoryUsage, Cache.getCurrentMemoryUsage,
      Cache.evictByMemoryPressure, Cache.evictLoop, sortLt, mapSet]
  have hmem : Cache.getCurrentMemoryUsage
      (Cache.set jsonOfString (emptyCache String) "walrus-data" oversizedValue 86400 0) =
      104857602 := by
    unfold Cache.getCurrentMemoryUsage
    rw [hset]
    simp
  rw [hmem]
  norm_num [Cache.maxMemoryUsage]

/-- Claim C5: after `set(k, v, ttl)` at instant `now`, `get(k)` returns `v`
at every instant up to `now + ttl` seconds; at every later instant `get(k)`
returns absent while deleting the entry, and a subsequent `has(k)` is false
at any instant. -/
theorem claim_C5_ttl {V : Type} (stringify : V → String) (st : CacheState V)
    (k : String) (v : V) (ttl now t1 : Nat) :
    (t1 ≤ now + ttl * 1000 →
      (Cache.get (Cache.set stringify st k v ttl now) k t1).1 = some v) ∧
    (now + ttl * 1000 < t1 →
      (Cache.get (Cache.set stringify st k v ttl now) k t1).1 = none ∧
      mapLookup ((Cache.get (Cache.set stringify st k v ttl now) k t1).2).cache k = none ∧
      ∀ t2 : Nat, Cache.has ((Cache.get (Cache.set stringify st k v ttl now) k t1).2) k t2 = false) := by
  have hl := cache_set_lookup stringify st k v ttl now
  constructor
  · intro hle
    unfold Cache.get
    rw [hl]
    dsimp only
    rw [if_neg (show ¬ (now + ttl * 1000 < t1) from by omega)]
  · intro hgt
    unfold Cache.get
    rw [hl]
    dsimp only
    rw [if_pos (show now + ttl * 1000 < t1 from hgt)]
    refine ⟨rfl, ?_, ?_⟩
    · exact mapLookup_mapDelete_self _ _
    · intro t2
      unfold Cache.has
      show (match mapLookup (Cache.del (Cache.set stringify st k v ttl now) k).cache k with
        | some item => decide (t2 ≤ item.expiresAt)
        | none => false) = false
      unfold Cache.del
      rw [mapLookup_mapDelete_self]

/-- Witness for claim C5 at a concrete key: a hit inside the TTL window and
a miss beyond it. -/
theorem claim_C5_witness :
    (Cache.get (Cache.set jsonOfString (emptyCache String) "k" "v" 1 0) "k" 500).1 = some "v" ∧
    (Cache.get (Cache.set jsonOfString (emptyCache String) "k" "v" 1 0) "k" 2000).1 = none :=
  ⟨(claim_C5_ttl jsonOfString (emptyCache String) "k" "v" 1 0 500).1 (by norm_num),
   ((claim_C5_ttl jsonOfString (emptyCache String) "k" "v" 1 0 2000).2 (by norm_num)).1⟩

/-- Claim C10: `getTimestamp` never consults expiry.  For an entry whose TTL
has elapsed but which has not been touched since, `getTimestamp` still
returns the insertion timestamp while `get` returns absent and `has` is
false; consequently the last-update surface still reports cacheStatus
active for the tracked key. -/
theorem claim_C10_timestamp_ignores_expiry {V : Type} (st : CacheState V) (k : String)
    (t : Nat) (e : CacheEntry V) (ts : Nat)
    (he : mapLookup st.cache k = some e) (hexp : e.expiresAt < t)
    (hts : mapLookup st.timestamps k = some ts) :
    Cache.getTimestamp st k = some ts ∧
    (Cache.get st k t).1 = none ∧
    Cache.has st k t = false ∧
    (k = "walrus-data" → lastUpdateCacheStatus st = "active") := by
  refine ⟨hts, ?_, ?_, ?_⟩
  · unfold Cache.get
    rw [he]
    dsimp only
    rw [if_pos hexp]
  · unfold Cache.has
    rw [he]
    simp only [decide_eq_false_iff_not]
    omega
  · intro hk
    subst hk
    unfold lastUpdateCacheStatus Cache.getTimestamp
    rw [hts]

/-- Witness for claim C10 on a concrete expired entry. -/
theorem claim_C10_witness :
    Cache.getTimestamp (Cache.set jsonOfString (emptyCache String) "walrus-data" "v" 1 0)
        "walrus-data" = some 0 ∧
    (Cache.get (Cache.set jsonOfString (emptyCache String) "walrus-data" "v" 1 0)
        "walrus-data" 2000).1 = none ∧
    lastUpdateCacheStatus (Cache.set jsonOfString (emptyCache String) "walrus-data" "v" 1 0)
        = "active" := by
  have h := claim_C10_timestamp_ignores_expiry
    (Cache.set jsonOfString (emptyCache String) "walrus-data" "v" 1 0) "walrus-data" 2000
    ⟨"v", 1000, 6, 0, 0⟩ 0 (by decide) (by decide) (by decide)
  exact ⟨h.1, h.2.1, h.2.2.2 rfl⟩

/-- Claim C6: a refresh trigger arriving while isRunning is already true is
an immediate no-op: scheduler state and cache are returned unchanged and no
page fetch is attempted. -/
theorem claim_C6_single_flight (sched : SchedulerState) (st : CacheState RawData)
    (fetches : List (Option RawData)) (now : Nat) (h : sched.isRunning = true) :
    performDailyScrape sched st fetches now = ⟨sched, st, 0⟩ := by
  unfold performDailyScrape
  rw [h]
  rfl

/-- Witness for claim C6 on a concrete running scheduler. -/
theorem claim_C6_witness :
    performDailyScrape ⟨true, none, none⟩ (emptyCache RawData) [some looseOnlyRecord] 5 =
      ⟨⟨true, none, none⟩, emptyCache RawData, 0⟩ :=
  claim_C6_single_flight ⟨true, none, none⟩ (emptyCache RawData) [some looseOnlyRecord] 5 rfl

/-- Claim C7: whenever strategies 1-2 left a capacity value but neither
price, the extracted record carries the documented constant prices 11000 and
20000 with provenance fallback; whenever any field was resolved and the
repair rule does not fire, provenance stays realtime and the price fields
are passed through unchanged. -/
theorem claim_C7_price_fallback (o : ExtractOutcome) (now : Int) :
    (o.storageCapacity.isSome = true ∧ o.storagePrice = none ∧ o.writePrice = none →
      (extractWalrusData o now).storagePrice = some fallbackStoragePrice ∧
      (extractWalrusData o now).writePrice = some fallbackWritePrice ∧
      (extractWalrusData o now).dataSource = some "fallback") ∧
    (¬ (o.storageCapacity.isSome = true ∧ o.storagePrice = none ∧ o.writePrice = none) →
      (extractWalrusData o now).dataSource = some "realtime" ∧
      (extractWalrusData o now).storagePrice = o.storagePrice ∧
      (extractWalrusData o now).writePrice = o.writePrice) := by
  unfold extractWalrusData applyPriceFallback
  constructor
  · intro hfire
    rw [if_pos (by exact hfire)]
    exact ⟨rfl, rfl, rfl⟩
  · intro hnofire
    rw [if_neg (by exact hnofire)]
    exact ⟨rfl, rfl, rfl⟩

/-- Witness for claim C7: a capacity-only outcome yields the fallback
constants, a price-bearing outcome is passed through as realtime. -/
theorem claim_C7_witness :
    (extractWalrusData ⟨none, none, some ⟨none, none, some 50, none, none⟩, none⟩ 0).dataSource =
      some "fallback" ∧
    (extractWalrusData ⟨some ⟨some 11000, none, none⟩, none, none, none⟩ 0).dataSource =
      some "realtime" :=
  ⟨((claim_C7_price_fallback ⟨none, none, some ⟨none, none, some 50, none, none⟩, none⟩ 0).1
      (by exact ⟨rfl, rfl, rfl⟩)).2.2,
   ((claim_C7_price_fallback ⟨some ⟨some 11000, none, none⟩, none, none, none⟩ 0).2
      (by intro h; exact absurd h.2.1 (by decide))).1⟩

/-- A positive lower bound turns a strict-range check into the loose
truthy-positive check. -/
theorem truthyPos_of_inRange (o : Option Rat) (lo hi : Rat) (hlo : 0 < lo)
    (h : inRange o lo hi = true) : truthyPos o = true := by
  cases o with
  | none => simp [inRange] at h
  | some v =>
    simp only [inRange, Bool.and_eq_true, decide_eq_true_eq] at h
    have hv : 0 < v := lt_of_lt_of_le hlo h.1
    simp only [truthyPos, Bool.and_eq_true, bne_iff_ne, ne_eq, decide_eq_true_eq]
    exact ⟨ne_of_gt hv, hv⟩

/-- Claim C4: the strict validator implies the loose validator, so the cache
is never admitted a record the serve gate would reject. -/
theorem claim_C4_strict_implies_loose (d : RawData)
    (h : validateDataStrict d = true) : validateData d = true := by
  unfold validateDataStrict at h
  simp only [Bool.and_eq_true] at h
  obtain ⟨⟨⟨hsp, hwp⟩, _hcap⟩, hep⟩ := h
  have h1 : truthyPos (spValue d) = true := truthyPos_of_inRange _ 1000 100000 (by norm_num) hsp
  have h2 : truthyPos (wpValue d) = true := truthyPos_of_inRange _ 1000 100000 (by norm_num) hwp
  have h4 : truthyPos (epNumber d) = true := truthyPos_of_inRange _ 1 10000 (by norm_num) hep
  unfold validateData validFields
  rw [h1, h2, h4]
  cases hcapb : hasStorageCapacity d <;> split <;> simp [List.count_cons]

/-- Witness for claim C4 at a concrete strictly-valid record. -/
theorem claim_C4_witness :
    validateData ⟨some ⟨some 11000, none, none⟩, some ⟨some 20000, none, none⟩,
      some ⟨none, none, some 50, none, none⟩, some ⟨some 150, none⟩,
      some "realtime", none⟩ = true :=
  claim_C4_strict_implies_loose _ (by decide)

/-- Claim C9 (amended): the Sanitizer preserves the provenance tag exactly
when it is one of the three recognized values realtime, fallback, cached,
and normalizes it to unknown in every other case, including estimated. -/
theorem claim_C9_amended (d : RawData) (now : Int) :
    (validateAndSanitizeData (some d) now).bind RawData.dataSource =
      (if d.dataSource = some "realtime" ∨ d.dataSource = some "fallback" ∨
          d.dataSource = some "cached"
       then d.dataSource else some "unknown") := by
  unfold validateAndSanitizeData
  show some (sanitizeSource d.dataSource) = _
  unfold sanitizeSource
  cases hds : d.dataSource with
  | none => simp
  | some s =>
    dsimp only
    by_cases hr : s = "realtime" ∨ s = "fallback" ∨ s = "cached"
    · rw [if_pos hr, if_pos (by simpa using hr)]
    · rw [if_neg hr, if_neg (by simpa using hr)]

/-- Counterexample to claim C9 as stated: the provenance value estimated is
not preserved; the Sanitizer normalizes it to unknown. -/
theorem claim_C9_counterexample :
    (validateAndSanitizeData (some rawEstimated) 0).bind RawData.dataSource = some "unknown" ∧
    rawEstimated.dataSource = some "estimated" ∧ ("unknown" : String) ≠ "estimated" := by
  refine ⟨?_, rfl, by decide⟩
  rfl

/-- Any record returned by the per-cycle scrape loop passed the loose
validator at the moment it was selected. -/
theorem scrape_result_validates (fetches : List (Option RawData)) :
    ∀ d : RawData, (scrapeWalrusData fetches).1 = some d → validateData d = true := by
  induction fetches with
  | nil => intro d h; exact absurd h (by simp [scrapeWalrusData])
  | cons f rest ih =>
    intro d h
    unfold scrapeWalrusData at h
    cases f with
    | none =>
      dsimp only at h
      exact ih d h
    | some d0 =>
      dsimp only at h
      by_cases hv : validateData d0 = true
      · rw [if_pos hv] at h
        cases h
        exact hv
      · rw [if_neg hv] at h
        dsimp only at h
        exact ih d h

/-- The scrape loop returns the first fetched record passing the loose
validator: every earlier source either failed to fetch or failed the loose
check. -/
theorem scrape_priority (fetches : List (Option RawData)) :
    ∀ d : RawData, (scrapeWalrusData fetches).1 = some d →
    ∃ i : Nat, fetches[i]? = some (some d) ∧
      ∀ j : Nat, j < i → ∀ d2 : RawData, fetches[j]? = some (some d2) → validateData d2 = false := by
  induction fetches with
  | nil => intro d h; exact absurd h (by simp [scrapeWalrusData])
  | cons f rest ih =>
    intro d h
    unfold scrapeWalrusData at h
    cases f with
    | none =>
      dsimp only at h
      obtain ⟨i, hi, hj⟩ := ih d h
      refine ⟨i + 1, by simpa using hi, ?_⟩
      intro j hji d2 hd2
      cases j with
      | zero => simp at hd2
      | succ j2 =>
        simp only [List.getElem?_cons_succ] at hd2
        exact hj j2 (by omega) d2 hd2
    | some d0 =>
      dsimp only at h
      by_cases hv : validateData d0 = true
      · rw [if_pos hv] at h
        cases h
        exact ⟨0, by simp, by intro j hj; omega⟩
      · rw [if_neg hv] at h
        dsimp only at h
        obtain ⟨i, hi, hj⟩ := ih d h
        refine ⟨i + 1, by simpa using hi, ?_⟩
        intro j hji d2 hd2
        cases j with
        | zero =>
          simp only [List.getElem?_cons_zero, Option.some.injEq] at hd2
          cases hd2
          exact Bool.not_eq_true _ ▸ (Bool.eq_false_iff.mpr (fun hc => hv hc))
        | succ j2 =>
          simp only [List.getElem?_cons_succ] at hd2
          exact hj j2 (by omega) d2 hd2

/-- Claim C1 (amended): within one refresh cycle the candidate sources are
tried strictly in priority order and the first record passing the LOOSE
validator `validateData` wins and short-circuits the rest; consequently
every record the cycle writes into the cache satisfies the loose validator.
The original strict-validator version of this claim is refuted by
the counterexample. -/
theorem claim_C1_amended :
    (∀ (fetches : List (Option RawData)) (d : RawData),
      (scrapeWalrusData fetches).1 = some d →
      validateData d = true ∧
      ∃ i : Nat, fetches[i]? = some (some d) ∧
        ∀ j : Nat, j < i → ∀ d2 : RawData, fetches[j]? = some (some d2) → validateData d2 = false) ∧
    (∀ (sched : SchedulerState) (st : CacheState RawData) (fetches : List (Option RawData))
      (now : Nat) (e : CacheEntry RawData),
      sched.isRunning = false →
      mapLookup (performDailyScrape sched st fetches now).cache.cache "walrus-data" = some e →
      validateData e.value = true) := by
  constructor
  · intro fetches d h
    exact ⟨scrape_result_validates fetches d h, scrape_priority fetches d h⟩
  · intro sched st fetches now e hrun hlook
    unfold performDailyScrape at hlook
    rw [hrun] at hlook
    simp only [Bool.false_eq_true, if_false] at hlook
    cases hs : (scrapeWalrusData fetches).1 with
    | none =>
      rw [hs] at hlook
      dsimp only at hlook
      unfold Cache.del at hlook
      rw [mapLookup_mapDelete_self] at hlook
      exact absurd hlook (by simp)
    | some d =>
      rw [hs] at hlook
      dsimp only at hlook
      rw [cache_set_lookup] at hlook
      cases hlook
      exact scrape_result_validates fetches d hs

/-- Witness for claim C1 (amended): the single-source cycle input consisting
of the loose-only record. -/
theorem claim_C1_witness :
    validateData looseOnlyRecord = true :=
  (claim_C1_amended.1 [some looseOnlyRecord] looseOnlyRecord (by decide)).1

/-- Counterexample to claim C1 as stated: the refresh cycle accepts and
caches a record that passes only the loose validator; the cached record
fails `validateDataStrict`, so the strict validator is not the gate. -/
theorem claim_C1_counterexample :
    ((mapLookup (performDailyScrape initialScheduler (emptyCache RawData)
        [some looseOnlyRecord] 0).cache.cache "walrus-data").map
      (fun e => e.value) = some looseOnlyRecord) ∧
    validateDataStrict looseOnlyRecord = false := by
  constructor
  · decide
  · decide

/-- A price object surviving the Sanitizer has its floored value inside the
code range 0 to 999999. -/
theorem sanitizePrice_bounds (p : Option RawPrice) (du : String) (pr : RawPrice) (v : Rat)
    (hp : sanitizePrice p du = some pr) (hv : pr.value = some v) :
    0 ≤ v ∧ v < 1000000 := by
  cases p with
  | none => exact absurd hp (by simp [sanitizePrice])
  | some pr0 =>
    unfold sanitizePrice at hp
    dsimp only at hp
    cases hv0 : pr0.value with
    | none => rw [hv0] at hp; exact absurd hp (by simp)
    | some v0 =>
      rw [hv0] at hp
      dsimp only at hp
      split_ifs at hp with hcond
      · cases hp
        simp only [Option.some.injEq] at hv
        subst hv
        refine ⟨by exact_mod_cast Int.floor_nonneg.mpr (le_of_lt hcond.2.1), ?_⟩
        calc ((⌊v0⌋ : Int) : Rat) ≤ v0 := Int.floor_le v0
          _ < 1000000 := hcond.2.2

/-- A price object whose value fails the range check is dropped, never
clamped. -/
theorem sanitizePrice_dropped (p : Option RawPrice) (du : String) (pr : RawPrice) (v : Rat)
    (hpr : p = some pr) (hv : pr.value = some v) (hbad : ¬ (0 < v ∧ v < 1000000)) :
    sanitizePrice p du = none := by
  subst hpr
  unfold sanitizePrice
  dsimp only
  rw [hv]
  dsimp only
  rw [if_neg (fun hc => hbad ⟨hc.2.1, hc.2.2⟩)]

/-- Two-decimal rounding keeps a percentage inside 0 to 100. -/
theorem roundTo2_bounds (p : Rat) (h0 : 0 ≤ p) (h1 : p ≤ 100) :
    0 ≤ roundTo2 p ∧ roundTo2 p ≤ 100 := by
  have hk0 : (0 : Int) ≤ round (100 * p) := by
    rw [round_eq]
    exact Int.floor_nonneg.mpr (by linarith)
  have hk1 : round (100 * p) ≤ 10000 := by
    rw [round_eq]
    have hlt : (100 * p + 1 / 2 : Rat) < ((10001 : Int) : Rat) := by push_cast; linarith
    have h2 := Int.floor_lt.mpr hlt
    omega
  unfold roundTo2
  constructor
  · positivity
  · rw [div_le_iff₀ (by norm_num)]
    have h3 : ((round (100 * p) : Int) : Rat) ≤ 10000 := by exact_mod_cast hk1
    linarith

/-- A capacity percentage surviving the Sanitizer lies inside 0 to 100. -/
theorem sanitizeCapacity_pct_bounds (c : Option RawCapacity) (c2 : RawCapacity) (q : Rat)
    (hc : sanitizeCapacity c = some c2) (hq : c2.percentage = some q) :
    0 ≤ q ∧ q ≤ 100 := by
  cases c with
  | none => exact absurd hc (by simp [sanitizeCapacity])
  | some cap =>
    unfold sanitizeCapacity at hc
    dsimp only at hc
    rw [Option.some.injEq] at hc
    subst hc
    dsimp only at hq
    unfold sanitizePct at hq
    cases hp0 : cap.percentage with
    | none => rw [hp0] at hq; exact absurd hq (by simp)
    | some p =>
      rw [hp0] at hq
      dsimp only at hq
      split_ifs at hq with hcond
      · rw [Option.some.injEq] at hq
        subst hq
        exact roundTo2_bounds p hcond.1 hcond.2

/-- A capacity percentage failing the range check is dropped from the
sanitized capacity object. -/
theorem sanitizeCapacity_pct_dropped (c : Option RawCapacity) (cap : RawCapacity) (q : Rat)
    (hcap : c = some cap) (hq : cap.percentage = some q) (hbad : ¬ (0 ≤ q ∧ q ≤ 100)) :
    ∀ c2, sanitizeCapacity c = some c2 → c2.percentage = none := by
  subst hcap
  intro c2 hc
  unfold sanitizeCapacity at hc
  dsimp only at hc
  rw [Option.some.injEq] at hc
  subst hc
  dsimp only
  unfold sanitizePct
  rw [hq]
  dsimp only
  rw [if_neg hbad]

/-- An epoch object surviving the Sanitizer has its floored number inside
the code range 0 to 99999. -/
theorem sanitizeEpoch_bounds (e : Option RawEpoch) (ep : RawEpoch) (n : Rat)
    (he : sanitizeEpoch e = some ep) (hn : ep.number = some n) :
    0 ≤ n ∧ n < 100000 := by
  cases e with
  | none => exact absurd he (by simp [sanitizeEpoch])
  | some ep0 =>
    unfold sanitizeEpoch at he
    dsimp only at he
    cases hn0 : ep0.number with
    | none => rw [hn0] at he; exact absurd he (by simp)
    | some n0 =>
      rw [hn0] at he
      dsimp only at he
      split_ifs at he with hcond
      · cases he
        simp only [Option.some.injEq] at hn
        subst hn
        refine ⟨by exact_mod_cast Int.floor_nonneg.mpr (le_of_lt hcond.2.1), ?_⟩
        calc ((⌊n0⌋ : Int) : Rat) ≤ n0 := Int.floor_le n0
          _ < 100000 := hcond.2.2

/-- An epoch object whose number fails the range check is dropped. -/
theorem sanitizeEpoch_dropped (e : Option RawEpoch) (ep : RawEpoch) (n : Rat)
    (hep : e = some ep) (hn : ep.number = some n) (hbad : ¬ (0 < n ∧ n < 100000)) :
    sanitizeEpoch e = none := by
  subst hep
  unfold sanitizeEpoch
  dsimp only
  rw [hn]
  dsimp only
  rw [if_neg (fun hc => hbad ⟨hc.2.1, hc.2.2⟩)]

/-- Claim C3 (amended): every numeric field present in the sanitized record
lies within the ranges the code enforces, namely prices in 0 to 999999
(accepted when 0 < v < 1000000 and then floored), percentage in 0 to 100,
epoch in 0 to 99999; a field whose input value is outside the accepted
range is absent in the output, never clamped to a boundary.  The documented
ranges of the original claim (prices 1000 to 100000, epoch 1 to 10000) are
refuted by the counterexample. -/
theorem claim_C3_amended (d : RawData) (now : Int) (out : RawData)
    (hout : validateAndSanitizeData (some d) now = some out) :
    (∀ pr v, out.storagePrice = some pr → pr.value = some v → 0 ≤ v ∧ v < 1000000) ∧
    (∀ pr v, out.writePrice = some pr → pr.value = some v → 0 ≤ v ∧ v < 1000000) ∧
    (∀ c q, out.storageCapacity = some c → c.percentage = some q → 0 ≤ q ∧ q ≤ 100) ∧
    (∀ ep n, out.epoch = some ep → ep.number = some n → 0 ≤ n ∧ n < 100000) ∧
    (∀ pr v, d.storagePrice = some pr → pr.value = some v → ¬ (0 < v ∧ v < 1000000) →
      out.storagePrice = none) ∧
    (∀ pr v, d.writePrice = some pr → pr.value = some v → ¬ (0 < v ∧ v < 1000000) →
      out.writePrice = none) ∧
    (∀ cap q, d.storageCapacity = some cap → cap.percentage = some q → ¬ (0 ≤ q ∧ q ≤ 100) →
      ∀ c2, out.storageCapacity = some c2 → c2.percentage = none) ∧
    (∀ ep n, d.epoch = some ep → ep.number = some n → ¬ (0 < n ∧ n < 100000) →
      out.epoch = none) := by
  unfold validateAndSanitizeData at hout
  rw [Option.some.injEq] at hout
  subst hout
  refine ⟨?_, ?_, ?_, ?_, ?_, ?_, ?_, ?_⟩
  · intro pr v hp hv
    exact sanitizePrice_bounds d.storagePrice "FROST/MiB/EPOCH" pr v hp hv
  · intro pr v hp hv
    exact sanitizePrice_bounds d.writePrice "FROST/MiB" pr v hp hv
  · intro c q hc hq
    exact sanitizeCapacity_pct_bounds d.storageCapacity c q hc hq
  · intro ep n he hn
    exact sanitizeEpoch_bounds d.epoch ep n he hn
  · intro pr v hpr hv hbad
    exact sanitizePrice_dropped d.storagePrice "FROST/MiB/EPOCH" pr v hpr hv hbad
  · intro pr v hpr hv hbad
    exact sanitizePrice_dropped d.writePrice "FROST/MiB" pr v hpr hv hbad
  · intro cap q hcap hq hbad
    exact sanitizeCapacity_pct_dropped d.storageCapacity cap q hcap hq hbad
  · intro ep n hep hn hbad
    exact sanitizeEpoch_dropped d.epoch ep n hep hn hbad

/-- Witness for claim C3 (amended): the accepted price value 500 appears in
the sanitized output and is inside the code range. -/
theorem claim_C3_witness : (0 : Rat) ≤ 500 ∧ (500 : Rat) < 1000000 :=
  (claim_C3_amended rawPrice500 0
      ⟨some ⟨some 500, some "FROST/MiB/EPOCH", some "500"⟩, none, none, none,
        some "unknown", some 0⟩ (by decide)).1
    ⟨some 500, some "FROST/MiB/EPOCH", some "500"⟩ 500 rfl rfl

/-- Counterexample to claim C3 as stated: the input price 500, below the
documented floor of 1000, is kept by the Sanitizer rather than treated as
absent. -/
theorem claim_C3_counterexample :
    (validateAndSanitizeData (some rawPrice500) 0).bind spValue = some 500 ∧
    ¬ ((1000 : Rat) ≤ 500) :=
  ⟨by decide, by norm_num⟩

/-! Idempotence of the Sanitizer, field by field. -/

theorem strOrDefault_ne_empty (o : Option String) (d : String) (hd : d ≠ "") :
    strOrDefault o d ≠ "" := by
  unfold strOrDefault
  cases o with
  | none => exact hd
  | some s =>
    dsimp only
    split_ifs with h
    · exact hd
    · exact h

theorem strOrNum_ne_empty (o : Option String) (v : Rat) : strOrNum o v ≠ "" := by
  unfold strOrNum
  cases o with
  | none => exact jsNumToString_ne_empty v
  | some s =>
    dsimp only
    split_ifs with h
    · exact jsNumToString_ne_empty v
    · exact h

theorem strOrDefault_some_ne (s d : String) (hs : s ≠ "") : strOrDefault (some s) d = s := by
  unfold strOrDefault
  dsimp only
  rw [if_neg hs]

theorem strOrNum_some_ne (s : String) (v : Rat) (hs : s ≠ "") : strOrNum (some s) v = s := by
  unfold strOrNum
  dsimp only
  rw [if_neg hs]

theorem roundTo2_idem (p : Rat) : roundTo2 (roundTo2 p) = roundTo2 p := by
  unfold roundTo2
  rw [mul_div_cancel₀ _ (by norm_num : (100 : Rat) ≠ 0)]
  rw [round_intCast]

theorem sanitizeNonneg_idem (o : Option Rat) : sanitizeNonneg (sanitizeNonneg o) = sanitizeNonneg o := by
  unfold sanitizeNonneg
  cases o with
  | none => rfl
  | some u =>
    dsimp only
    split_ifs with h
    · dsimp only
      rw [if_pos (by exact_mod_cast Int.floor_nonneg.mpr h), Int.floor_intCast]
    · rfl

theorem sanitizePct_idem (o : Option Rat) : sanitizePct (sanitizePct o) = sanitizePct o := by
  unfold sanitizePct
  cases o with
  | none => rfl
  | some p =>
    dsimp only
    split_ifs with h
    · dsimp only
      rw [if_pos (roundTo2_bounds p h.1 h.2), roundTo2_idem]
    · rfl

theorem sanitizePctDisplay_of_pct (o : Option Rat) :
    sanitizePctDisplay (sanitizePct o) = sanitizePctDisplay o := by
  unfold sanitizePct sanitizePctDisplay
  cases o with
  | none => rfl
  | some p =>
    dsimp only
    split_ifs with h
    · dsimp only
      rw [if_pos (roundTo2_bounds p h.1 h.2), roundTo2_idem]
    · rfl

theorem sanitizeDisplay_idem (o : Option String) (n : Nat) (hn : n ≠ 0) :
    sanitizeDisplay (sanitizeDisplay o n) n = sanitizeDisplay o n := by
  unfold sanitizeDisplay
  cases o with
  | none => rfl
  | some s =>
    dsimp only
    split_ifs with h
    · rfl
    · dsimp only
      rw [if_neg (fun hc => (jsSubstring_ne_empty s n h hn) hc), jsSubstring_idem]

theorem sanitizeCapacity_idem (c : Option RawCapacity) :
    sanitizeCapacity (sanitizeCapacity c) = sanitizeCapacity c := by
  cases c with
  | none => rfl
  | some cap =>
    show sanitizeCapacity (some ⟨sanitizeNonneg cap.used, sanitizeNonneg cap.total,
      sanitizePct cap.percentage, sanitizePctDisplay cap.percentage,
      sanitizeDisplay cap.display 100⟩) = _
    unfold sanitizeCapacity
    dsimp only
    rw [sanitizeNonneg_idem, sanitizeNonneg_idem, sanitizePct_idem, sanitizePctDisplay_of_pct,
      sanitizeDisplay_idem cap.display 100 (by norm_num)]

theorem sanitizePrice_idem (p : Option RawPrice) (du : String) (hdu : du ≠ "")
    (h : priceValueGe1 p = true) :
    sanitizePrice (sanitizePrice p du) du = sanitizePrice p du := by
  cases p with
  | none => rfl
  | some pr =>
    unfold priceValueGe1 at h
    dsimp only at h
    cases hv : pr.value with
    | none =>
      have hinner : sanitizePrice (some pr) du = none := by
        unfold sanitizePrice
        dsimp only
        rw [hv]
      rw [hinner]
      rfl
    | some v =>
      rw [hv] at h
      dsimp only at h
      have hge : 0 < v → 1 ≤ v := of_decide_eq_true h
      by_cases hcond : v ≠ 0 ∧ 0 < v ∧ v < 1000000
      · have hinner : sanitizePrice (some pr) du =
            some ⟨some ((⌊v⌋ : Int) : Rat),
              some (jsSubstring (strOrDefault pr.unit du) 50),
              some (jsSubstring (strOrNum pr.display v) 20)⟩ := by
          unfold sanitizePrice
          dsimp only
          rw [hv]
          dsimp only
          rw [if_pos hcond]
        rw [hinner]
        have h1le : (1 : Rat) ≤ v := hge hcond.2.1
        have hfl1 : (1 : Int) ≤ ⌊v⌋ := Int.le_floor.mpr (by exact_mod_cast h1le)
        have hvipos : (0 : Rat) < ((⌊v⌋ : Int) : Rat) := by exact_mod_cast hfl1
        have hu1ne : jsSubstring (strOrDefault pr.unit du) 50 ≠ "" :=
          jsSubstring_ne_empty _ 50 (strOrDefault_ne_empty pr.unit du hdu) (by norm_num)
        have hd1ne : jsSubstring (strOrNum pr.display v) 20 ≠ "" :=
          jsSubstring_ne_empty _ 20 (strOrNum_ne_empty pr.display v) (by norm_num)
        unfold sanitizePrice
        dsimp only
        rw [if_pos ⟨ne_of_gt hvipos, hvipos,
          lt_of_le_of_lt (Int.floor_le v) hcond.2.2⟩]
        rw [Int.floor_intCast]
        rw [strOrDefault_some_ne _ du hu1ne, jsSubstring_idem]
        rw [strOrNum_some_ne _ _ hd1ne, jsSubstring_idem]
      · have hinner : sanitizePrice (some pr) du = none := by
          unfold sanitizePrice
          dsimp only
          rw [hv]
          dsimp only
          rw [if_neg hcond]
        rw [hinner]
        rfl

theorem sanitizeEpoch_idem (e : Option RawEpoch) (h : epochValueGe1 e = true) :
    sanitizeEpoch (sanitizeEpoch e) = sanitizeEpoch e := by
  cases e with
  | none => rfl
  | some ep =>
    unfold epochValueGe1 at h
    dsimp only at h
    cases hn : ep.number with
    | none =>
      have hinner : sanitizeEpoch (some ep) = none := by
        unfold sanitizeEpoch
        dsimp only
        rw [hn]
      rw [hinner]
      rfl
    | some n =>
      rw [hn] at h
      dsimp only at h
      have hge : 0 < n → 1 ≤ n := of_decide_eq_true h
      by_cases hcond : n ≠ 0 ∧ 0 < n ∧ n < 100000
      · have hinner : sanitizeEpoch (some ep) =
            some ⟨some ((⌊n⌋ : Int) : Rat), some ("Epoch " ++ jsIntToString ⌊n⌋)⟩ := by
          unfold sanitizeEpoch
          dsimp only
          rw [hn]
          dsimp only
          rw [if_pos hcond]
        rw [hinner]
        have h1le : (1 : Rat) ≤ n := hge hcond.2.1
        have hfl1 : (1 : Int) ≤ ⌊n⌋ := Int.le_floor.mpr (by exact_mod_cast h1le)
        have hnipos : (0 : Rat) < ((⌊n⌋ : Int) : Rat) := by exact_mod_cast hfl1
        unfold sanitizeEpoch
        dsimp only
        rw [if_pos ⟨ne_of_gt hnipos, hnipos,
          lt_of_le_of_lt (Int.floor_le n) hcond.2.2⟩]
        rw [Int.floor_intCast]
      · have hinner : sanitizeEpoch (some ep) = none := by
          unfold sanitizeEpoch
          dsimp only
          rw [hn]
          dsimp only
          rw [if_neg hcond]
        rw [hinner]
        rfl

theorem sanitizeSource_idem (o : Option String) :
    sanitizeSource (some (sanitizeSource o)) = sanitizeSource o := by
  unfold sanitizeSource
  cases o with
  | none => norm_num
  | some s =>
    dsimp only
    by_cases hmem : s = "realtime" ∨ s = "fallback" ∨ s = "cached"
    · rw [if_pos hmem, if_pos hmem]
    · rw [if_neg hmem]
      norm_num

theorem sanitizeTimestamp_idem (o : Option Int) (now : Int) :
    sanitizeTimestamp (some (sanitizeTimestamp o now)) now = sanitizeTimestamp o now := by
  unfold sanitizeTimestamp
  cases o with
  | none =>
    dsimp only
    split_ifs <;> rfl
  | some t =>
    dsimp only
    by_cases ht : t ≠ 0
    · rw [if_pos ht, if_pos ht]
    · rw [if_neg ht]
      split_ifs <;> rfl

/-- Claim C8 (amended): sanitization is idempotent on every record whose
accepted positive price and epoch values are at least 1.  The original
unconditional claim fails, because an accepted value in the open interval
(0, 1) is floored to 0, which the second pass treats as falsy and drops
(see the counterexample). -/
theorem claim_C8_amended (d : RawData) (now : Int)
    (h1 : priceValueGe1 d.storagePrice = true) (h2 : priceValueGe1 d.writePrice = true)
    (h3 : epochValueGe1 d.epoch = true) :
    validateAndSanitizeData (validateAndSanitizeData (some d) now) now =
      validateAndSanitizeData (some d) now := by
  unfold validateAndSanitizeData
  dsimp only
  rw [sanitizePrice_idem d.storagePrice "FROST/MiB/EPOCH" (by decide) h1]
  rw [sanitizePrice_idem d.writePrice "FROST/MiB" (by decide) h2]
  rw [sanitizeCapacity_idem d.storageCapacity]
  rw [sanitizeEpoch_idem d.epoch h3]
  rw [sanitizeSource_idem d.dataSource]
  rw [sanitizeTimestamp_idem d.timestamp now]

/-- Witness for claim C8 (amended) on a concrete well-behaved record. -/
theorem claim_C8_witness :
    validateAndSanitizeData (validateAndSanitizeData (some looseOnlyRecord) 7) 7 =
      validateAndSanitizeData (some looseOnlyRecord) 7 :=
  claim_C8_amended looseOnlyRecord 7 (by decide) (by decide) (by decide)

/-- Counterexample to claim C8 as stated: on the record whose storagePrice
value is 1/2 the Sanitizer is not idempotent; the first pass floors the
accepted value to 0 and the second pass drops the field. -/
theorem claim_C8_counterexample :
    validateAndSanitizeData (validateAndSanitizeData (some rawHalfPrice) 0) 0 ≠
      validateAndSanitizeData (some rawHalfPrice) 0 := by decide
